import Mathlib

/-!
Verification of the transakt ledger engine: a shallow embedding of the
fixed-point currency type (src/currency.rs), the per-client account state
machine (src/account.rs) and the transaction-dispatch engine (src/lib.rs),
together with theorems settling the specification claims.

Rust `u64` values are modelled as `Nat` together with explicit bound checks
against `2 ^ 64` wherever the source uses checked arithmetic, and an
explicit `% 2 ^ 64` where the source performs an unchecked addition.
Fallible operations return `Except`/`Option`; methods that take `&mut self`
are modelled by returning the updated value alongside the result, so that
partial mutation before an early error return stays observable.
-/

deriving instance DecidableEq for Except

/-- The `u64` range bound: arithmetic in the source is checked against it. -/
def u64Bound : Nat := 2 ^ 64

/-- Error enumeration of the engine (src/lib.rs, `enum Error`). -/
inductive Error where
  | TransactionParseError
  | InsufficientHeldFunds
  | DuplicateTransaction (id : Nat)
  | Overflow
  | AccountLocked
  | InsufficientFunds
  | InvalidTransaction
deriving DecidableEq, Repr

/-- Construction errors of `Currency` (src/currency.rs, `CurrencyError`). -/
inductive CurrencyError where
  | Overflow
  | DecimalError
deriving DecidableEq, Repr

/-- Parse errors of `Currency` (src/currency.rs, `CurrencyFormatError`). -/
inductive CurrencyFormatError where
  | InvalidRepresentation
deriving DecidableEq, Repr

/-- Fixed-point currency (src/currency.rs, `struct Currency`): the value in
units of one ten-thousandth, stored in a `u64`. -/
structure Currency where
  amount : Nat
deriving DecidableEq, Repr

/-- Source `Currency::UNIT_IN_DECIMALS = 10^DECIMAL_DIGITS` with 4 decimal digits. -/
def Currency.UNIT_IN_DECIMALS : Nat := 10000

/-- Source `Currency::new(unit, decimal)` (src/currency.rs): checked multiply of the
unit part, bound check on the decimal part; the final addition is unchecked
in the source, hence the explicit wrap. -/
def Currency.new (unit decimal : Nat) : Except CurrencyError Currency :=
  if unit * Currency.UNIT_IN_DECIMALS < u64Bound then
    if decimal < Currency.UNIT_IN_DECIMALS then
      Except.ok ⟨(unit * Currency.UNIT_IN_DECIMALS + decimal) % u64Bound⟩
    else Except.error CurrencyError.DecimalError
  else Except.error CurrencyError.Overflow

/-- Source `Currency::checked_add` (src/currency.rs): `u64::checked_add` on amounts. -/
def Currency.checked_add (a b : Currency) : Option Currency :=
  if a.amount + b.amount < u64Bound then some ⟨a.amount + b.amount⟩ else none

/-- Source `Currency::checked_sub` (src/currency.rs): `u64::checked_sub` on amounts. -/
def Currency.checked_sub (a b : Currency) : Option Currency :=
  if b.amount ≤ a.amount then some ⟨a.amount - b.amount⟩ else none

/-- Modelled from the spec: the source calls `Currency::is_negative` in
src/account.rs and src/lib.rs but its definition is not among the sources
here.  Per the spec (§3) a currency value is "stored as a non-negative
integer count of smallest units" (a `u64`), so a value is never negative and
the predicate is constantly false. -/
def Currency.is_negative (_ : Currency) : Bool := false

/-- Per-client account (src/account.rs, `struct Account`). -/
structure Account where
  client : Nat
  available : Currency
  held : Currency
  locked : Bool
deriving DecidableEq, Repr

/-- Source `Account::new` (src/account.rs): zero balances, unlocked. -/
def Account.new (client : Nat) : Account :=
  ⟨client, ⟨0⟩, ⟨0⟩, false⟩

/-- Source `Account::total` (src/account.rs): checked sum of available and held. -/
def Account.total (acc : Account) : Option Currency :=
  acc.available.checked_add acc.held

/-- Source `Account::deposit` (src/account.rs): add to available unless locked. -/
def Account.deposit (acc : Account) (amount : Currency) :
    Except Error Unit × Account :=
  if !acc.locked then
    match acc.available.checked_add amount with
    | some sum => (Except.ok (), { acc with available := sum })
    | none => (Except.error Error.Overflow, acc)
  else (Except.error Error.AccountLocked, acc)

/-- Source `Account::withdraw` (src/account.rs): checked subtract from available,
then the (dead, see `Currency.is_negative`) negativity check. -/
def Account.withdraw (acc : Account) (amount : Currency) :
    Except Error Unit × Account :=
  if !acc.locked then
    match acc.available.checked_sub amount with
    | none => (Except.error Error.Overflow, acc)
    | some diff =>
      if diff.is_negative then (Except.error Error.InsufficientFunds, acc)
      else (Except.ok (), { acc with available := diff })
  else (Except.error Error.AccountLocked, acc)

/-- Source `Account::chargeback` (src/account.rs): checked subtract from held, then
lock; rejected with `AccountLocked` when the account is already locked. -/
def Account.chargeback (acc : Account) (amount : Currency) :
    Except Error Unit × Account :=
  if !acc.locked then
    match acc.held.checked_sub amount with
    | none => (Except.error Error.Overflow, acc)
    | some diff =>
      let acc1 := { acc with held := diff }
      if acc1.held.is_negative then
        (Except.error Error.InsufficientHeldFunds, acc1)
      else (Except.ok (), { acc1 with locked := true })
  else (Except.error Error.AccountLocked, acc)

/-- Source `Account::hold` (src/account.rs): the held increase is committed before
the available decrease is checked, exactly as in the source (which carries a
"TODO: Should happen atomically" comment). -/
def Account.hold (acc : Account) (amount : Currency) :
    Except Error Unit × Account :=
  if !acc.locked then
    match acc.held.checked_add amount with
    | none => (Except.error Error.Overflow, acc)
    | some sum =>
      let acc1 := { acc with held := sum }
      match acc1.available.checked_sub amount with
      | none => (Except.error Error.Overflow, acc1)
      | some diff => (Except.ok (), { acc1 with available := diff })
  else (Except.error Error.AccountLocked, acc)

/-- Source `Account::release` (src/account.rs): the held decrease is committed
before the available increase is checked, exactly as in the source. -/
def Account.release (acc : Account) (amount : Currency) :
    Except Error Unit × Account :=
  if !acc.locked then
    match acc.held.checked_sub amount with
    | none => (Except.error Error.Overflow, acc)
    | some diff =>
      let acc1 := { acc with held := diff }
      if acc1.held.is_negative then
        (Except.error Error.InsufficientHeldFunds, acc1)
      else
        match acc1.available.checked_add amount with
        | none => (Except.error Error.Overflow, acc1)
        | some sum => (Except.ok (), { acc1 with available := sum })
  else (Except.error Error.AccountLocked, acc)

/-- Transactions (src/transaction.rs, `enum Transaction`); identifiers are
modelled as `Nat`, only their equality is used by the engine. -/
inductive Transaction where
  | Deposit (client : Nat) (tx : Nat) (amount : Currency) (disputed : Bool)
  | Withdrawal (client : Nat) (tx : Nat) (amount : Currency)
  | Dispute (client : Nat) (tx : Nat)
  | Resolve (client : Nat) (tx : Nat)
  | Chargeback (client : Nat) (tx : Nat)
deriving DecidableEq, Repr

/-- Whether a stored record is a deposit (the only disputable kind). -/
def Transaction.isDeposit : Transaction → Bool
  | .Deposit _ _ _ _ => true
  | _ => false

/-- Engine state (src/lib.rs, `struct Transakt`): the two hash maps,
modelled as partial functions from identifiers. -/
structure Transakt where
  accounts : Nat → Option Account
  transactions : Nat → Option Transaction

/-- Source `Transakt::default`: both maps empty. -/
def Transakt.empty : Transakt :=
  ⟨fun _ => none, fun _ => none⟩

/-- Source `HashMap::insert` on the partial-function model of a map. -/
def mapInsert {α : Type} (m : Nat → Option α) (k : Nat) (v : α) :
    Nat → Option α :=
  fun k' => if k' = k then some v else m k'

/-- Source `Transakt::execute_transaction` (src/lib.rs).  The result is `none` when
the source would panic (the `unwrap` on the account lookup inside the
dispute/resolve/chargeback arms); otherwise it is the returned `Result`
paired with the engine state after the call, partial mutations included. -/
def Transakt.executeTransaction (s : Transakt) (t : Transaction) :
    Option (Except Error Unit × Transakt) :=
  match t with
  | .Deposit client tx amount disputed =>
    if amount.is_negative then some (Except.error Error.InvalidTransaction, s)
    else if (s.transactions tx).isSome then
      some (Except.error (Error.DuplicateTransaction tx), s)
    else
      let account := (s.accounts client).getD (Account.new client)
      let r := account.deposit amount
      match r.1 with
      | Except.error e =>
        some (Except.error e,
          { s with accounts := mapInsert s.accounts client r.2 })
      | Except.ok () =>
        some (Except.ok (),
          { s with
            accounts := mapInsert s.accounts client r.2,
            transactions :=
              mapInsert s.transactions tx
                (Transaction.Deposit client tx amount disputed) })
  | .Withdrawal client tx amount =>
    if amount.is_negative then some (Except.error Error.InvalidTransaction, s)
    else if (s.transactions tx).isSome then
      some (Except.error (Error.DuplicateTransaction tx), s)
    else
      let account := (s.accounts client).getD (Account.new client)
      let r := account.withdraw amount
      match r.1 with
      | Except.error e =>
        some (Except.error e,
          { s with accounts := mapInsert s.accounts client r.2 })
      | Except.ok () =>
        some (Except.ok (),
          { s with
            accounts := mapInsert s.accounts client r.2,
            transactions :=
              mapInsert s.transactions tx
                (Transaction.Withdrawal client tx amount) })
  | .Dispute _ tx =>
    match s.transactions tx with
    | none => some (Except.ok (), s)
    | some (.Deposit c t0 a disputed) =>
      if disputed then some (Except.error Error.InvalidTransaction, s)
      else
        let s1 := { s with
          transactions :=
            mapInsert s.transactions tx (Transaction.Deposit c t0 a true) }
        match s1.accounts c with
        | none => none
        | some account =>
          let r := account.hold a
          some (Except.ok (),
            { s1 with accounts := mapInsert s1.accounts c r.2 })
    | some _ => some (Except.ok (), s)
  | .Resolve _ tx =>
    match s.transactions tx with
    | none => some (Except.ok (), s)
    | some (.Deposit c t0 a disputed) =>
      if !disputed then some (Except.error Error.InvalidTransaction, s)
      else
        let s1 := { s with
          transactions :=
            mapInsert s.transactions tx (Transaction.Deposit c t0 a false) }
        match s1.accounts c with
        | none => none
        | some account =>
          let r := account.release a
          some (Except.ok (),
            { s1 with accounts := mapInsert s1.accounts c r.2 })
    | some _ => some (Except.ok (), s)
  | .Chargeback _ tx =>
    match s.transactions tx with
    | none => some (Except.ok (), s)
    | some (.Deposit c t0 a disputed) =>
      if !disputed then some (Except.error Error.InvalidTransaction, s)
      else
        let s1 := { s with
          transactions :=
            mapInsert s.transactions tx (Transaction.Deposit c t0 a false) }
        match s1.accounts c with
        | none => none
        | some account =>
          let r := account.chargeback a
          some (r.1, { s1 with accounts := mapInsert s1.accounts c r.2 })
    | some _ => some (Except.ok (), s)

/-- The state after one transaction, keeping the previous state on a panic. -/
def Transakt.step (s : Transakt) (t : Transaction) : Transakt :=
  match s.executeTransaction t with
  | some (_, s') => s'
  | none => s

/-- The state after a sequence of transactions. -/
def Transakt.runAll (s : Transakt) (ts : List Transaction) : Transakt :=
  ts.foldl Transakt.step s

/-- Rust `str::split('.')` specialised to the dot separator, over char lists. -/
def splitOnDot : List Char → List (List Char)
  | [] => [[]]
  | c :: cs =>
    if c = '.' then [] :: splitOnDot cs
    else
      match splitOnDot cs with
      | [] => [[c]]
      | f :: rest => (c :: f) :: rest

/-- Numeric value of a decimal digit character. -/
def digitVal (c : Char) : Nat := c.toNat - 48

/-- Value accumulated by a decimal parse over a run of digit characters. -/
def parseDigitsVal (cs : List Char) : Nat :=
  cs.foldl (fun a c => a * 10 + digitVal c) 0

/-- Rust `u64::from_str` (as used by `Currency::from_str`): an optional leading
plus sign, then one or more decimal digits, rejecting values outside the
`u64` range. -/
def parseU64 (cs : List Char) : Option Nat :=
  let body := if cs.head? = some '+' then cs.tail else cs
  if body.isEmpty then none
  else if body.all Char.isDigit then
    let n := parseDigitsVal body
    if n < u64Bound then some n else none
  else none

/-- Source `Currency::from_str` (src/currency.rs), the match on the split fields:
parse the unit part as a `u64`; an empty fraction becomes `"0"`; the
fraction must be all digits, is truncated to 4 digits, scaled by
`10^(4 - length)`, and the two parts go through `Currency::new`. -/
def Currency.fromStrFields (fields : List (List Char)) :
    Except CurrencyFormatError Currency :=
  match fields with
  | [units] =>
    match parseU64 units with
    | none => Except.error CurrencyFormatError.InvalidRepresentation
    | some u =>
      match Currency.new u 0 with
      | Except.ok v => Except.ok v
      | Except.error _ => Except.error CurrencyFormatError.InvalidRepresentation
  | [units, decimals] =>
    match parseU64 units with
    | none => Except.error CurrencyFormatError.InvalidRepresentation
    | some u =>
      let ds := if decimals.length > 0 then decimals else ['0']
      if ds.all Char.isDigit then
        let ds4 := ds.take 4
        let multiplier := 10 ^ (4 - ds4.length)
        match parseU64 ds4 with
        | none => Except.error CurrencyFormatError.InvalidRepresentation
        | some d =>
          match Currency.new u (d * multiplier) with
          | Except.ok v => Except.ok v
          | Except.error _ =>
            Except.error CurrencyFormatError.InvalidRepresentation
      else Except.error CurrencyFormatError.InvalidRepresentation
  | _ => Except.error CurrencyFormatError.InvalidRepresentation

/-- Source `Currency::from_str` (src/currency.rs): split the input on the dot and
dispatch on the resulting fields. -/
def Currency.fromStr (cs : List Char) : Except CurrencyFormatError Currency :=
  Currency.fromStrFields (splitOnDot cs)

/-- Fuel-driven most-significant-first decimal rendering of a `Nat`,
mirroring the standard formatting of a Rust `u64`. -/
def natToCharsAux : Nat → Nat → List Char → List Char
  | 0, _, acc => acc
  | fuel + 1, n, acc =>
    if n < 10 then Nat.digitChar n :: acc
    else natToCharsAux fuel (n / 10) (Nat.digitChar (n % 10) :: acc)

/-- Decimal rendering of a `Nat` (no leading zeros, `"0"` for zero). -/
def natToChars (n : Nat) : List Char := natToCharsAux (n + 1) n []

/-- Zero padding on the left up to a given width (Rust's `{:04}`). -/
def padLeftZeros (w : Nat) (cs : List Char) : List Char :=
  List.replicate (w - cs.length) '0' ++ cs

/-- Source `impl Display for Currency` (src/currency.rs): `"{}.{:04}"` applied to
the unit and fractional parts. -/
def Currency.display (v : Currency) : List Char :=
  natToChars (v.amount / Currency.UNIT_IN_DECIMALS) ++
    '.' :: padLeftZeros 4 (natToChars (v.amount % Currency.UNIT_IN_DECIMALS))

/-- The primitive values a serializer receives for one field. -/
inductive FieldVal where
  | num (n : Nat)
  | str (s : List Char)
  | boolean (b : Bool)
deriving DecidableEq, Repr

/-- Source `impl Serialize for Currency` (src/currency.rs): the display string. -/
def Currency.serialize (v : Currency) : FieldVal := FieldVal.str v.display

/-- Source `impl Serialize for Account` (src/account.rs): the field list in source
order; serialization of the whole row fails when `total()` overflows.  Note
the third field name is the string the source passes, `"help"`. -/
def Account.serialize (acc : Account) :
    Except (List Char) (List (List Char × FieldVal)) :=
  match acc.total with
  | none => Except.error ['O', 'v', 'e', 'r', 'f', 'l', 'o', 'w']
  | some tot =>
    Except.ok
      [(['c', 'l', 'i', 'e', 'n', 't'], FieldVal.num acc.client),
       (['a', 'v', 'a', 'i', 'l', 'a', 'b', 'l', 'e'],
         acc.available.serialize),
       (['h', 'e', 'l', 'p'], acc.held.serialize),
       (['t', 'o', 't', 'a', 'l'], tot.serialize),
       (['l', 'o', 'c', 'k', 'e', 'd'], FieldVal.boolean acc.locked)]




/-- Proof-side decimal rendering: the digit characters of `n`, most
significant first, defined through `Nat.digits`. -/
def natMsd (n : Nat) : List Char :=
  if n = 0 then ['0'] else ((Nat.digits 10 n).map Nat.digitChar).reverse

lemma digitChar_isDigit {d : Nat} (h : d < 10) :
    (Nat.digitChar d).isDigit = true := by
  interval_cases d <;> rfl

lemma digitVal_digitChar {d : Nat} (h : d < 10) :
    digitVal (Nat.digitChar d) = d := by
  interval_cases d <;> rfl

lemma natMsd_lt10 {n : Nat} (h : n < 10) : natMsd n = [Nat.digitChar n] := by
  rcases Nat.eq_zero_or_pos n with h0 | h0
  · subst h0; rfl
  · unfold natMsd
    rw [if_neg (Nat.pos_iff_ne_zero.mp h0),
      Nat.digits_of_lt 10 n (Nat.pos_iff_ne_zero.mp h0) h]
    rfl

lemma natMsd_ge10 {n : Nat} (h : 10 ≤ n) :
    natMsd n = natMsd (n / 10) ++ [Nat.digitChar (n % 10)] := by
  have hn : n ≠ 0 := by omega
  have hq : n / 10 ≠ 0 := by
    intro h0
    have h1 := Nat.div_add_mod n 10
    have h2 := Nat.mod_lt n (show 0 < 10 by norm_num)
    omega
  unfold natMsd
  rw [if_neg hn, if_neg hq,
    Nat.digits_def' (show (1:Nat) < 10 by norm_num) (Nat.pos_of_ne_zero hn)]
  simp

lemma natMsd_ne_nil (n : Nat) : natMsd n ≠ [] := by
  by_cases h : n < 10
  · rw [natMsd_lt10 h]; simp
  · rw [natMsd_ge10 (le_of_not_lt h)]; simp

lemma natToCharsAux_eq :
    ∀ (fuel n : Nat) (acc : List Char), 0 < fuel → n < 10 ^ fuel →
      natToCharsAux fuel n acc = natMsd n ++ acc := by
  intro fuel
  induction fuel with
  | zero => intro n acc h; omega
  | succ f ih =>
    intro n acc _ hlt
    unfold natToCharsAux
    by_cases h10 : n < 10
    · rw [if_pos h10, natMsd_lt10 h10]
      rfl
    · rw [if_neg h10]
      have hf : 0 < f := by
        rcases Nat.eq_zero_or_pos f with h0 | h0
        · subst h0; simp at hlt; omega
        · exact h0
      have hdiv : n / 10 < 10 ^ f := by
        rw [Nat.div_lt_iff_lt_mul (show 0 < 10 by norm_num)]
        calc n < 10 ^ (f + 1) := hlt
          _ = 10 ^ f * 10 := by ring
      rw [ih (n / 10) _ hf hdiv, natMsd_ge10 (le_of_not_lt h10)]
      simp

lemma natToChars_eq (n : Nat) : natToChars n = natMsd n := by
  have h2 : n < 2 ^ n := Nat.lt_two_pow n
  have h3 : 2 ^ n ≤ 10 ^ n := Nat.pow_le_pow_left (by norm_num) n
  have h4 : 10 ^ n ≤ 10 ^ (n + 1) :=
    Nat.pow_le_pow_right (by norm_num) (Nat.le_succ n)
  have h1 : n < 10 ^ (n + 1) := by omega
  simpa using natToCharsAux_eq (n + 1) n [] (Nat.succ_pos n) h1

lemma natMsd_all_isDigit (n : Nat) : ∀ c ∈ natMsd n, c.isDigit = true := by
  induction n using Nat.strong_induction_on with
  | _ n ih =>
    by_cases h10 : n < 10
    · rw [natMsd_lt10 h10]
      intro c hc
      simp only [List.mem_singleton] at hc
      subst hc
      exact digitChar_isDigit h10
    · rw [natMsd_ge10 (le_of_not_lt h10)]
      intro c hc
      rw [List.mem_append] at hc
      rcases hc with hc | hc
      · exact ih (n / 10) (Nat.div_lt_self (by omega) (by norm_num)) c hc
      · simp only [List.mem_singleton] at hc
        subst hc
        exact digitChar_isDigit (Nat.mod_lt n (by norm_num))

lemma natMsd_length_le {n : Nat} :
    ∀ {k : Nat}, 0 < k → n < 10 ^ k → (natMsd n).length ≤ k := by
  induction n using Nat.strong_induction_on with
  | _ n ih =>
    intro k hk h
    by_cases h10 : n < 10
    · rw [natMsd_lt10 h10]
      simpa using hk
    · rcases k with _ | k'
      · omega
      rcases k' with _ | k''
      · rw [pow_one] at h; omega
      have hdiv : n / 10 < 10 ^ (k'' + 1) := by
        rw [Nat.div_lt_iff_lt_mul (show 0 < 10 by norm_num)]
        calc n < 10 ^ (k'' + 2) := h
          _ = 10 ^ (k'' + 1) * 10 := by ring
      have hrec := ih (n / 10) (Nat.div_lt_self (by omega) (by norm_num))
        (Nat.succ_pos k'') hdiv
      rw [natMsd_ge10 (le_of_not_lt h10)]
      simp only [List.length_append, List.length_singleton]
      omega

lemma foldVal_natMsd (n : Nat) :
    ∀ a, (natMsd n).foldl (fun x c => x * 10 + digitVal c) a =
      a * 10 ^ (natMsd n).length + n := by
  induction n using Nat.strong_induction_on with
  | _ n ih =>
    intro a
    by_cases h10 : n < 10
    · rw [natMsd_lt10 h10]
      simp [digitVal_digitChar h10]
    · rw [natMsd_ge10 (le_of_not_lt h10)]
      rw [List.foldl_append]
      rw [ih (n / 10) (Nat.div_lt_self (by omega) (by norm_num)) a]
      have hmod : n % 10 < 10 := Nat.mod_lt n (by norm_num)
      have hn : 10 * (n / 10) + n % 10 = n := Nat.div_add_mod n 10
      simp only [List.foldl_cons, List.foldl_nil, List.length_append,
        List.length_singleton, digitVal_digitChar hmod]
      calc (a * 10 ^ (natMsd (n / 10)).length + n / 10) * 10 + n % 10
          = a * (10 ^ (natMsd (n / 10)).length * 10) +
            (10 * (n / 10) + n % 10) := by ring
        _ = a * 10 ^ ((natMsd (n / 10)).length + 1) + n := by
            rw [hn, pow_succ]

lemma foldVal_replicate_zeros (k : Nat) :
    (List.replicate k '0').foldl (fun x c => x * 10 + digitVal c) 0 = 0 := by
  induction k with
  | zero => rfl
  | succ k ih =>
    rw [List.replicate_succ, List.foldl_cons]
    simpa [digitVal] using ih

lemma parseDigitsVal_pad_natMsd (k n : Nat) :
    parseDigitsVal (List.replicate k '0' ++ natMsd n) = n := by
  unfold parseDigitsVal
  rw [List.foldl_append, foldVal_replicate_zeros, foldVal_natMsd]
  simp

lemma isDigit_ne_plus {c : Char} (h : c.isDigit = true) : c ≠ '+' := by
  intro h0
  subst h0
  exact absurd h (by decide)

lemma isDigit_ne_dot {c : Char} (h : c.isDigit = true) : c ≠ '.' := by
  intro h0
  subst h0
  exact absurd h (by decide)

lemma pad_natMsd_all_isDigit (k n : Nat) :
    (List.replicate k '0' ++ natMsd n).all Char.isDigit = true := by
  rw [List.all_eq_true]
  intro c hc
  rw [List.mem_append] at hc
  rcases hc with hc | hc
  · rw [List.eq_of_mem_replicate hc]
    rfl
  · exact natMsd_all_isDigit n c hc

lemma parseU64_pad_natMsd {n : Nat} (h : n < u64Bound) (k : Nat) :
    parseU64 (List.replicate k '0' ++ natMsd n) = some n := by
  have hall := pad_natMsd_all_isDigit k n
  have hne : List.replicate k '0' ++ natMsd n ≠ [] := by
    intro h0
    rcases List.append_eq_nil.mp h0 with ⟨_, h2⟩
    exact natMsd_ne_nil n h2
  unfold parseU64
  have hplus : (List.replicate k '0' ++ natMsd n).head? ≠ some '+' := by
    rcases hcs : List.replicate k '0' ++ natMsd n with _ | ⟨c, rest⟩
    · exact absurd hcs hne
    · have hc : c.isDigit = true := by
        have := List.all_eq_true.mp (hcs ▸ hall) c (by simp)
        exact this
      simp only [List.head?_cons]
      exact fun h0 => isDigit_ne_plus hc (Option.some.inj h0)
  rw [if_neg hplus, if_neg (by simpa [List.isEmpty_iff] using hne)]
  rw [if_pos hall, parseDigitsVal_pad_natMsd, if_pos h]

lemma parseU64_natMsd {n : Nat} (h : n < u64Bound) :
    parseU64 (natMsd n) = some n := by
  simpa using parseU64_pad_natMsd h 0

lemma splitOnDot_ne_nil (cs : List Char) : splitOnDot cs ≠ [] := by
  induction cs with
  | nil => simp [splitOnDot]
  | cons c cs ih =>
    unfold splitOnDot
    by_cases h : c = '.'
    · rw [if_pos h]; simp
    · rw [if_neg h]
      rcases hs : splitOnDot cs with _ | ⟨f, rest⟩
      · exact absurd hs ih
      · simp

lemma splitOnDot_no_dot {cs : List Char} (h : ∀ c ∈ cs, c ≠ '.') :
    splitOnDot cs = [cs] := by
  induction cs with
  | nil => rfl
  | cons c cs ih =>
    unfold splitOnDot
    rw [if_neg (h c (by simp))]
    rw [ih (fun x hx => h x (by simp [hx]))]

lemma splitOnDot_append {xs : List Char} (ys : List Char)
    (hx : ∀ c ∈ xs, c ≠ '.') :
    splitOnDot (xs ++ '.' :: ys) = xs :: splitOnDot ys := by
  induction xs with
  | nil => simp [splitOnDot]
  | cons c xs ih =>
    have hc : c ≠ '.' := hx c (by simp)
    have hrec := ih (fun x hx2 => hx x (by simp [hx2]))
    rw [List.cons_append]
    conv_lhs => rw [splitOnDot]
    rw [if_neg hc, hrec]

/-- Claim C7 auxiliary: the canonical display of a value splits into its
unit digits and exactly the four padded fraction digits. -/
lemma display_split (v : Currency) :
    splitOnDot v.display =
      [natMsd (v.amount / Currency.UNIT_IN_DECIMALS),
       List.replicate
           (4 - (natMsd (v.amount % Currency.UNIT_IN_DECIMALS)).length) '0' ++
         natMsd (v.amount % Currency.UNIT_IN_DECIMALS)] := by
  unfold Currency.display padLeftZeros
  rw [natToChars_eq, natToChars_eq]
  rw [splitOnDot_append _
    (fun c hc => isDigit_ne_dot (natMsd_all_isDigit _ c hc))]
  rw [splitOnDot_no_dot]
  intro c hc
  rw [List.mem_append] at hc
  rcases hc with hc | hc
  · rw [List.eq_of_mem_replicate hc]; decide
  · exact isDigit_ne_dot (natMsd_all_isDigit _ c hc)

/-- Claim C7: for every currency value producible by `new`/`from_str` (all
of which hold a `u64`, that is an amount below `2^64`), parsing the
canonical display string yields exactly the same value. -/
theorem c7_parse_format_roundtrip (v : Currency) (h : v.amount < u64Bound) :
    Currency.fromStr v.display = Except.ok v := by
  have hu_lt : v.amount / Currency.UNIT_IN_DECIMALS < u64Bound :=
    lt_of_le_of_lt (Nat.div_le_self _ _) h
  have hd_lt : v.amount % Currency.UNIT_IN_DECIMALS <
      Currency.UNIT_IN_DECIMALS := Nat.mod_lt _ (by decide)
  have hL : (natMsd (v.amount % Currency.UNIT_IN_DECIMALS)).length ≤ 4 :=
    natMsd_length_le (by norm_num)
      (by simpa [Currency.UNIT_IN_DECIMALS] using hd_lt)
  have hlen :
      (List.replicate
          (4 - (natMsd (v.amount % Currency.UNIT_IN_DECIMALS)).length) '0' ++
        natMsd (v.amount % Currency.UNIT_IN_DECIMALS)).length = 4 := by
    simp only [List.length_append, List.length_replicate]
    omega
  have hall := pad_natMsd_all_isDigit
    (4 - (natMsd (v.amount % Currency.UNIT_IN_DECIMALS)).length)
    (v.amount % Currency.UNIT_IN_DECIMALS)
  have htake :
      (List.replicate
          (4 - (natMsd (v.amount % Currency.UNIT_IN_DECIMALS)).length) '0' ++
        natMsd (v.amount % Currency.UNIT_IN_DECIMALS)).take 4 =
      List.replicate
          (4 - (natMsd (v.amount % Currency.UNIT_IN_DECIMALS)).length) '0' ++
        natMsd (v.amount % Currency.UNIT_IN_DECIMALS) :=
    List.take_of_length_le (by rw [hlen])
  have hpu : parseU64 (natMsd (v.amount / Currency.UNIT_IN_DECIMALS)) =
      some (v.amount / Currency.UNIT_IN_DECIMALS) := parseU64_natMsd hu_lt
  have hpf : parseU64
      (List.replicate
          (4 - (natMsd (v.amount % Currency.UNIT_IN_DECIMALS)).length) '0' ++
        natMsd (v.amount % Currency.UNIT_IN_DECIMALS)) =
      some (v.amount % Currency.UNIT_IN_DECIMALS) :=
    parseU64_pad_natMsd (lt_trans hd_lt (by decide)) _
  have hud : v.amount / Currency.UNIT_IN_DECIMALS *
      Currency.UNIT_IN_DECIMALS +
      v.amount % Currency.UNIT_IN_DECIMALS = v.amount := by
    rw [mul_comm]
    exact Nat.div_add_mod _ _
  have hnew : Currency.new (v.amount / Currency.UNIT_IN_DECIMALS)
      (v.amount % Currency.UNIT_IN_DECIMALS) = Except.ok v := by
    unfold Currency.new
    have hmul : v.amount / Currency.UNIT_IN_DECIMALS *
        Currency.UNIT_IN_DECIMALS ≤ v.amount := by omega
    rw [if_pos (lt_of_le_of_lt hmul h), if_pos hd_lt, hud,
      Nat.mod_eq_of_lt h]
  unfold Currency.fromStr
  rw [display_split v]
  simp only [Currency.fromStrFields, hpu, hlen, hall, htake, hpf, hnew]
  simp [hlen, htake, hpf, hnew]
  exact natMsd_all_isDigit _

/-- Claim C7 witness at the concrete value 123.4009. -/
theorem c7_witness :
    (⟨1234009⟩ : Currency).amount < u64Bound ∧
      Currency.fromStr (Currency.display ⟨1234009⟩) = Except.ok ⟨1234009⟩ :=
  ⟨by decide, c7_parse_format_roundtrip ⟨1234009⟩ (by decide)⟩

/-- Claim C9: parsing truncates fraction digits beyond the 4-digit scale
(for any unit part and any all-digit fraction, the parse of `u.ds` equals
the parse of `u.` followed by the first 4 digits of `ds`), and a missing
fraction is read as trailing zeros (`u.` parses like `u.0000`).  The spec
instances `parse("1234.00001") = parse("1234.0000")`,
`parse("1234.00011") = parse("1234.0001")` and
`parse("1234.") = parse("1234.0000")` are instances of the two parts. -/
theorem c9_truncation (u ds : List Char)
    (hu : ∀ c ∈ u, c ≠ '.') (hd : ds.all Char.isDigit = true) :
    Currency.fromStr (u ++ '.' :: ds) =
      Currency.fromStr (u ++ '.' :: ds.take 4) ∧
    Currency.fromStr (u ++ ['.']) =
      Currency.fromStr (u ++ '.' :: ['0', '0', '0', '0']) := by
  have hd4 : (ds.take 4).all Char.isDigit = true := by
    rw [List.all_eq_true] at hd ⊢
    exact fun c hc => hd c (List.take_subset 4 ds hc)
  have hnodot : ∀ c ∈ ds, c ≠ '.' := fun c hc =>
    isDigit_ne_dot (List.all_eq_true.mp hd c hc)
  have hnodot4 : ∀ c ∈ ds.take 4, c ≠ '.' := fun c hc =>
    hnodot c (List.take_subset 4 ds hc)
  constructor
  · unfold Currency.fromStr
    rw [splitOnDot_append _ hu, splitOnDot_append _ hu,
      splitOnDot_no_dot hnodot, splitOnDot_no_dot hnodot4]
    simp only [Currency.fromStrFields]
    cases hparse : parseU64 u with
    | none => rfl
    | some u0 =>
      rcases List.eq_nil_or_concat ds with hds | ⟨_, _, hds⟩
      · subst hds
        rfl
      · have hlen : 0 < ds.length := by
          subst hds
          simp
        have hlen4 : 0 < (ds.take 4).length := by
          simp only [List.length_take]
          omega
        simp [hlen, hlen4, hd, hd4, List.take_take]
  · unfold Currency.fromStr
    rw [splitOnDot_append _ hu, splitOnDot_append _ hu,
      @splitOnDot_no_dot ['0', '0', '0', '0'] (by decide)]
    have h00 : splitOnDot ([] : List Char) = [[]] := rfl
    rw [h00]
    simp only [Currency.fromStrFields]
    cases hparse : parseU64 u with
    | none => rfl
    | some u0 =>
      have hz : parseU64 ['0'] = some 0 := by decide
      have hz4 : parseU64 ['0', '0', '0', '0'] = some 0 := by decide
      simp [hz, hz4]

/-- Claim C9 witness at `"1234.00001"` (whose 4-digit truncation is
`"1234.0000"`) and `"1234."`. -/
theorem c9_witness :
    (∀ c ∈ ['1', '2', '3', '4'], c ≠ '.') ∧
    (['0', '0', '0', '0', '1'].all Char.isDigit = true) ∧
    (Currency.fromStr (['1', '2', '3', '4'] ++ '.' ::
          ['0', '0', '0', '0', '1']) =
        Currency.fromStr (['1', '2', '3', '4'] ++ '.' ::
          ['0', '0', '0', '0', '1'].take 4) ∧
      Currency.fromStr (['1', '2', '3', '4'] ++ ['.']) =
        Currency.fromStr (['1', '2', '3', '4'] ++ '.' ::
          ['0', '0', '0', '0'])) :=
  ⟨by decide, by decide, c9_truncation _ _ (by decide) (by decide)⟩

lemma mapInsert_self {α : Type} (m : Nat → Option α) (k : Nat) (v : α) :
    mapInsert m k v k = some v := by
  simp [mapInsert]

lemma mapInsert_ne {α : Type} (m : Nat → Option α) {k k' : Nat} (v : α)
    (h : k' ≠ k) : mapInsert m k v k' = m k' := by
  simp [mapInsert, h]

/-- Claim C1: evaluation of `withdraw` at the spec's own scenario (an
unlocked account with available 0.0000 and held 2.0000, withdrawing
0.5000).  The code returns `Overflow`, not the `InsufficientFunds` the
claim requires — the unsigned checked subtraction already fails whenever
the amount exceeds available, so the `InsufficientFunds` branch behind the
negativity test is unreachable.  Balances are left unchanged, and a locked
account is rejected with `AccountLocked`, as the claim states. -/
theorem c1_withdraw_underflow_is_overflow :
    Account.withdraw ⟨1, ⟨0⟩, ⟨20000⟩, false⟩ ⟨5000⟩ =
      (Except.error Error.Overflow, ⟨1, ⟨0⟩, ⟨20000⟩, false⟩) ∧
    Account.withdraw ⟨1, ⟨0⟩, ⟨20000⟩, true⟩ ⟨5000⟩ =
      (Except.error Error.AccountLocked, ⟨1, ⟨0⟩, ⟨20000⟩, true⟩) := by
  decide

/-- Claim C2: evaluation of `hold` and `release` at failing inputs.  Holding
2.0000 on an unlocked account with available 1.0000 and held 0 returns
`Overflow` with `held` already raised to 2.0000 (partial mutation), and a
release whose available-side addition overflows returns `Overflow` with
`held` already lowered — both refute the claimed check-then-commit
atomicity. -/
theorem c2_hold_release_partial_mutation :
    Account.hold ⟨1, ⟨10000⟩, ⟨0⟩, false⟩ ⟨20000⟩ =
      (Except.error Error.Overflow, ⟨1, ⟨10000⟩, ⟨20000⟩, false⟩) ∧
    Account.release ⟨1, ⟨u64Bound - 1⟩, ⟨10000⟩, false⟩ ⟨10000⟩ =
      (Except.error Error.Overflow, ⟨1, ⟨u64Bound - 1⟩, ⟨0⟩, false⟩) := by
  decide

/-- Claim C4 counterexample: chargeback on an already locked account is
rejected with `AccountLocked` and changes nothing, contradicting the claim
that it executes even when the account is locked. -/
theorem c4_counterexample :
    Account.chargeback ⟨1, ⟨0⟩, ⟨10000⟩, true⟩ ⟨10000⟩ =
      (Except.error Error.AccountLocked, ⟨1, ⟨0⟩, ⟨10000⟩, true⟩) := by
  decide

/-- Claim C4 (amended): on an unlocked account, chargeback removes the
amount from held (failing with `Overflow` when held is insufficient) and
sets `locked := true`; when the account is already locked it is rejected
with `AccountLocked` (see the counterexample). -/
theorem c4_amended (acct : Account) (a : Currency)
    (h : acct.locked = false) :
    (a.amount ≤ acct.held.amount →
      Account.chargeback acct a =
        (Except.ok (),
          { acct with held := ⟨acct.held.amount - a.amount⟩,
                      locked := true })) ∧
    (acct.held.amount < a.amount →
      Account.chargeback acct a = (Except.error Error.Overflow, acct)) := by
  have hnl : (!acct.locked) = true := by rw [h]; rfl
  constructor
  · intro hle
    unfold Account.chargeback
    rw [if_pos hnl]
    unfold Currency.checked_sub
    rw [if_pos hle]
    simp [Currency.is_negative]
  · intro hlt
    unfold Account.chargeback
    rw [if_pos hnl]
    unfold Currency.checked_sub
    rw [if_neg (by omega)]

/-- Claim C4 witness: the amended behaviour at an unlocked account with
held 3.0000 and a chargeback of 1.0000. -/
theorem c4_witness :
    (⟨1, ⟨0⟩, ⟨30000⟩, false⟩ : Account).locked = false ∧
    (((⟨10000⟩ : Currency).amount ≤ (⟨30000⟩ : Currency).amount →
        Account.chargeback ⟨1, ⟨0⟩, ⟨30000⟩, false⟩ ⟨10000⟩ =
          (Except.ok (), ⟨1, ⟨0⟩, ⟨20000⟩, true⟩)) ∧
      ((⟨30000⟩ : Currency).amount < (⟨10000⟩ : Currency).amount →
        Account.chargeback ⟨1, ⟨0⟩, ⟨30000⟩, false⟩ ⟨10000⟩ =
          (Except.error Error.Overflow, ⟨1, ⟨0⟩, ⟨30000⟩, false⟩))) :=
  ⟨rfl, c4_amended ⟨1, ⟨0⟩, ⟨30000⟩, false⟩ ⟨10000⟩ rfl⟩

/-- Claim C6: a dispute, resolve or chargeback whose transaction id is not
in the ledger, or whose stored record is not a deposit, returns success and
leaves the engine state untouched. -/
theorem c6_unknown_reference_noop (s : Transakt) (tx c1 c2 c3 : Nat)
    (h : s.transactions tx = none ∨
      ∃ r, s.transactions tx = some r ∧ r.isDeposit = false) :
    s.executeTransaction (Transaction.Dispute c1 tx) =
        some (Except.ok (), s) ∧
    s.executeTransaction (Transaction.Resolve c2 tx) =
        some (Except.ok (), s) ∧
    s.executeTransaction (Transaction.Chargeback c3 tx) =
        some (Except.ok (), s) := by
  rcases h with h | ⟨r, hr, hnd⟩
  · simp only [Transakt.executeTransaction, h]
    exact ⟨trivial, trivial, trivial⟩
  · cases r with
    | Deposit c0 t0 a0 d0 => exact absurd hnd (by simp [Transaction.isDeposit])
    | Withdrawal c0 t0 a0 =>
      simp only [Transakt.executeTransaction, hr]
      exact ⟨trivial, trivial, trivial⟩
    | Dispute c0 t0 =>
      simp only [Transakt.executeTransaction, hr]
      exact ⟨trivial, trivial, trivial⟩
    | Resolve c0 t0 =>
      simp only [Transakt.executeTransaction, hr]
      exact ⟨trivial, trivial, trivial⟩
    | Chargeback c0 t0 =>
      simp only [Transakt.executeTransaction, hr]
      exact ⟨trivial, trivial, trivial⟩

/-- Claim C6 witness: the empty engine and an unknown transaction id. -/
theorem c6_witness :
    (Transakt.empty.transactions 7 = none ∨
      ∃ r, Transakt.empty.transactions 7 = some r ∧ r.isDeposit = false) ∧
    (Transakt.empty.executeTransaction (Transaction.Dispute 1 7) =
        some (Except.ok (), Transakt.empty) ∧
      Transakt.empty.executeTransaction (Transaction.Resolve 2 7) =
        some (Except.ok (), Transakt.empty) ∧
      Transakt.empty.executeTransaction (Transaction.Chargeback 3 7) =
        some (Except.ok (), Transakt.empty)) :=
  ⟨Or.inl rfl, c6_unknown_reference_noop Transakt.empty 7 1 2 3 (Or.inl rfl)⟩


/-- Claim C5 (amended): a dispute followed by a resolve on the same
accepted, undisputed deposit restores available and held exactly, provided
the hold performed by the dispute succeeds — the account is unlocked,
available covers the disputed amount and the held increase stays in range
(when the hold fails its error is discarded and the balances are not
restored, see the counterexample). -/
theorem c5_amended (s : Transakt) (c tx t0 cx cy : Nat) (a : Currency)
    (acct : Account)
    (h1 : s.transactions tx = some (Transaction.Deposit c t0 a false))
    (h2 : s.accounts c = some acct)
    (h3 : acct.locked = false)
    (h4 : a.amount ≤ acct.available.amount)
    (h5 : acct.held.amount + a.amount < u64Bound)
    (h6 : acct.available.amount < u64Bound) :
    ∃ s1 s2, s.executeTransaction (Transaction.Dispute cx tx) =
        some (Except.ok (), s1) ∧
      s1.executeTransaction (Transaction.Resolve cy tx) =
        some (Except.ok (), s2) ∧
      ∃ acct2, s2.accounts c = some acct2 ∧
        acct2.available = acct.available ∧ acct2.held = acct.held := by
  have hba : a.amount ≤ acct.held.amount + a.amount := by omega
  have hax : acct.available.amount - a.amount + a.amount < u64Bound := by
    omega
  refine ⟨(⟨mapInsert s.accounts c
      { acct with available := ⟨acct.available.amount - a.amount⟩,
                  held := ⟨acct.held.amount + a.amount⟩ },
    mapInsert s.transactions tx
      (Transaction.Deposit c t0 a true)⟩ : Transakt), ?_⟩
  refine ⟨(⟨mapInsert (mapInsert s.accounts c
      { acct with available := ⟨acct.available.amount - a.amount⟩,
                  held := ⟨acct.held.amount + a.amount⟩ }) c
      { acct with
          available := ⟨acct.available.amount - a.amount + a.amount⟩,
          held := ⟨acct.held.amount + a.amount - a.amount⟩ },
    mapInsert (mapInsert s.transactions tx
        (Transaction.Deposit c t0 a true)) tx
      (Transaction.Deposit c t0 a false)⟩ : Transakt), ?_, ?_, ?_⟩
  · simp only [Transakt.executeTransaction, h1, Bool.false_eq_true,
      if_false, Account.hold, Currency.checked_add, Currency.checked_sub,
      h2, h3, h4, h5, if_true, Bool.not_false]
  · simp only [Transakt.executeTransaction, mapInsert_self, Bool.not_true,
      Bool.false_eq_true, if_false, Account.release, Currency.checked_add,
      Currency.checked_sub, h3, hba, hax, if_true, Bool.not_false,
      Currency.is_negative]
  · refine ⟨_, mapInsert_self _ _ _, ?_, ?_⟩
    · show (⟨acct.available.amount - a.amount + a.amount⟩ : Currency) =
        acct.available
      rw [Nat.sub_add_cancel h4]
    · show (⟨acct.held.amount + a.amount - a.amount⟩ : Currency) = acct.held
      rw [Nat.add_sub_cancel]

/-- Claim C5 witness: dispute then resolve of a 2.0000 deposit on a fresh
account restores the balances. -/
theorem c5_witness :
    ((Transakt.runAll Transakt.empty
        [Transaction.Deposit 1 1 ⟨20000⟩ false]).transactions 1 =
      some (Transaction.Deposit 1 1 ⟨20000⟩ false)) ∧
    ((Transakt.runAll Transakt.empty
        [Transaction.Deposit 1 1 ⟨20000⟩ false]).accounts 1 =
      some ⟨1, ⟨20000⟩, ⟨0⟩, false⟩) ∧
    ((⟨1, ⟨20000⟩, ⟨0⟩, false⟩ : Account).locked = false) ∧
    ((⟨20000⟩ : Currency).amount ≤
      (⟨1, ⟨20000⟩, ⟨0⟩, false⟩ : Account).available.amount) ∧
    ((⟨1, ⟨20000⟩, ⟨0⟩, false⟩ : Account).held.amount +
      (⟨20000⟩ : Currency).amount < u64Bound) ∧
    ((⟨1, ⟨20000⟩, ⟨0⟩, false⟩ : Account).available.amount < u64Bound) ∧
    (∃ s1 s2, (Transakt.runAll Transakt.empty
          [Transaction.Deposit 1 1 ⟨20000⟩ false]).executeTransaction
          (Transaction.Dispute 3 1) = some (Except.ok (), s1) ∧
      s1.executeTransaction (Transaction.Resolve 4 1) =
        some (Except.ok (), s2) ∧
      ∃ acct2, s2.accounts 1 = some acct2 ∧
        acct2.available = (⟨1, ⟨20000⟩, ⟨0⟩, false⟩ : Account).available ∧
        acct2.held = (⟨1, ⟨20000⟩, ⟨0⟩, false⟩ : Account).held) :=
  ⟨by decide, by decide, by decide, by decide, by decide, by decide,
    c5_amended _ 1 1 1 3 4 ⟨20000⟩ ⟨1, ⟨20000⟩, ⟨0⟩, false⟩ (by decide)
      (by decide) (by decide) (by decide) (by decide) (by decide)⟩

/-- Claim C8: the serialized row of an account.  The order is client,
available, held-value, total, locked, `total` comes from `total()` and the
currency fields use the canonical 4-digit format — but the third field is
emitted under the name `"help"`, not `"held"` as the claim states; and
serialization fails with `"Overflow"` when `total()` overflows. -/
theorem c8_serialize_row :
    Account.serialize ⟨1, ⟨10000⟩, ⟨20000⟩, false⟩ =
      Except.ok
        [(['c', 'l', 'i', 'e', 'n', 't'], FieldVal.num 1),
         (['a', 'v', 'a', 'i', 'l', 'a', 'b', 'l', 'e'],
           FieldVal.str ['1', '.', '0', '0', '0', '0']),
         (['h', 'e', 'l', 'p'],
           FieldVal.str ['2', '.', '0', '0', '0', '0']),
         (['t', 'o', 't', 'a', 'l'],
           FieldVal.str ['3', '.', '0', '0', '0', '0']),
         (['l', 'o', 'c', 'k', 'e', 'd'], FieldVal.boolean false)] ∧
    (['h', 'e', 'l', 'p'] : List Char) ≠ ['h', 'e', 'l', 'd'] ∧
    Account.serialize ⟨1, ⟨u64Bound - 1⟩, ⟨1⟩, false⟩ =
      Except.error ['O', 'v', 'e', 'r', 'f', 'l', 'o', 'w'] := by
  decide

lemma deposit_snd_or (acc : Account) (am : Currency) :
    (acc.deposit am).1 = Except.ok () ∨ (acc.deposit am).2 = acc := by
  unfold Account.deposit
  split
  · split
    · exact Or.inl rfl
    · exact Or.inr rfl
  · exact Or.inr rfl

lemma withdraw_snd_or (acc : Account) (am : Currency) :
    (acc.withdraw am).1 = Except.ok () ∨ (acc.withdraw am).2 = acc := by
  unfold Account.withdraw
  split
  · split
    · exact Or.inr rfl
    · split
      · exact Or.inr rfl
      · exact Or.inl rfl
  · exact Or.inr rfl

lemma chargeback_snd_or (acc : Account) (am : Currency) :
    (acc.chargeback am).1 = Except.ok () ∨ (acc.chargeback am).2 = acc := by
  unfold Account.chargeback
  split
  · split
    · exact Or.inr rfl
    · simp only [Currency.is_negative, Bool.false_eq_true, if_false]
      exact Or.inl trivial
  · exact Or.inr rfl

/-- Claim C3 counterexample: deposit tx 1 (2.0000) and tx 2 (3.0000),
dispute both, charge back tx 1 (which locks the account); a chargeback of
tx 2 then returns `AccountLocked` — an error — yet the stored record of
tx 2 has had its disputed flag cleared, so the failing transaction did
mutate the engine state. -/
theorem c3_counterexample :
    ((Transakt.runAll Transakt.empty
        [Transaction.Deposit 1 1 ⟨20000⟩ false,
         Transaction.Deposit 1 2 ⟨30000⟩ false,
         Transaction.Dispute 1 1,
         Transaction.Dispute 1 2,
         Transaction.Chargeback 1 1]).transactions 2 =
      some (Transaction.Deposit 1 2 ⟨30000⟩ true)) ∧
    (((Transakt.runAll Transakt.empty
        [Transaction.Deposit 1 1 ⟨20000⟩ false,
         Transaction.Deposit 1 2 ⟨30000⟩ false,
         Transaction.Dispute 1 1,
         Transaction.Dispute 1 2,
         Transaction.Chargeback 1 1]).executeTransaction
      (Transaction.Chargeback 1 2)).map
        (fun p => (p.1, p.2.transactions 2)) =
      some (Except.error Error.AccountLocked,
        some (Transaction.Deposit 1 2 ⟨30000⟩ false))) := by
  decide

/-- Claim C3 (amended): when `execute_transaction` returns an error, no
transaction record is added and every account keeps its fields, except that
(a) a failing deposit or withdrawal may have inserted a fresh default
account for a previously unseen client (the get-or-create runs before the
account operation), and (b) a failing chargeback has already cleared the
referenced record's disputed flag.  (The claim as stated is refuted by the
counterexample.) -/
theorem c3_amended (s : Transakt) (t : Transaction) (e : Error)
    (s' : Transakt)
    (h : s.executeTransaction t = some (Except.error e, s')) :
    (∀ k, s'.accounts k = s.accounts k ∨
      (s.accounts k = none ∧ s'.accounts k = some (Account.new k))) ∧
    (∀ k, s'.transactions k = s.transactions k ∨
      ∃ c0 t0 a0,
        s.transactions k = some (Transaction.Deposit c0 t0 a0 true) ∧
        s'.transactions k = some (Transaction.Deposit c0 t0 a0 false)) := by
  cases t with
  | Deposit client tx amount disputed =>
    simp only [Transakt.executeTransaction, Currency.is_negative,
      Bool.false_eq_true, if_false] at h
    by_cases hdup : (s.transactions tx).isSome = true
    · rw [if_pos hdup] at h
      simp only [Option.some.injEq, Prod.mk.injEq] at h
      obtain ⟨-, hs⟩ := h
      subst hs
      exact ⟨fun k => Or.inl rfl, fun k => Or.inl rfl⟩
    · rw [if_neg hdup] at h
      cases hfst : (((s.accounts client).getD
          (Account.new client)).deposit amount).1 with
      | ok u =>
        rw [hfst] at h
        simp at h
      | error e2 =>
        rw [hfst] at h
        simp only [Option.some.injEq, Prod.mk.injEq] at h
        obtain ⟨-, hs⟩ := h
        subst hs
        rcases deposit_snd_or ((s.accounts client).getD (Account.new client))
            amount with hok | hsnd
        · rw [hok] at hfst
          simp at hfst
        · constructor
          · intro k
            by_cases hk : k = client
            · subst hk
              show mapInsert s.accounts k _ k = s.accounts k ∨ _
              rw [mapInsert_self, hsnd]
              cases hacc : s.accounts k with
              | some a0 => exact Or.inl (by simp [hacc, mapInsert_self])
              | none => exact Or.inr ⟨rfl, by simp [hacc, mapInsert_self]⟩
            · exact Or.inl (mapInsert_ne _ _ hk)
          · exact fun k => Or.inl rfl
  | Withdrawal client tx amount =>
    simp only [Transakt.executeTransaction, Currency.is_negative,
      Bool.false_eq_true, if_false] at h
    by_cases hdup : (s.transactions tx).isSome = true
    · rw [if_pos hdup] at h
      simp only [Option.some.injEq, Prod.mk.injEq] at h
      obtain ⟨-, hs⟩ := h
      subst hs
      exact ⟨fun k => Or.inl rfl, fun k => Or.inl rfl⟩
    · rw [if_neg hdup] at h
      cases hfst : (((s.accounts client).getD
          (Account.new client)).withdraw amount).1 with
      | ok u =>
        rw [hfst] at h
        simp at h
      | error e2 =>
        rw [hfst] at h
        simp only [Option.some.injEq, Prod.mk.injEq] at h
        obtain ⟨-, hs⟩ := h
        subst hs
        rcases withdraw_snd_or ((s.accounts client).getD
            (Account.new client)) amount with hok | hsnd
        · rw [hok] at hfst
          simp at hfst
        · constructor
          · intro k
            by_cases hk : k = client
            · subst hk
              show mapInsert s.accounts k _ k = s.accounts k ∨ _
              rw [mapInsert_self, hsnd]
              cases hacc : s.accounts k with
              | some a0 => exact Or.inl (by simp [hacc, mapInsert_self])
              | none => exact Or.inr ⟨rfl, by simp [hacc, mapInsert_self]⟩
            · exact Or.inl (mapInsert_ne _ _ hk)
          · exact fun k => Or.inl rfl
  | Dispute cP tx =>
    cases htx : s.transactions tx with
    | none =>
      simp [Transakt.executeTransaction, htx] at h
    | some r =>
      cases r with
      | Deposit c0 t0 a0 d0 =>
        cases d0 with
        | true =>
          simp only [Transakt.executeTransaction, htx, if_true,
            Option.some.injEq, Prod.mk.injEq] at h
          obtain ⟨-, hs⟩ := h
          subst hs
          exact ⟨fun k => Or.inl rfl, fun k => Or.inl rfl⟩
        | false =>
          cases hacc : s.accounts c0 with
          | none =>
            simp [Transakt.executeTransaction, htx, hacc] at h
          | some acct =>
            simp [Transakt.executeTransaction, htx, hacc] at h
      | Withdrawal c0 t0 a0 =>
        simp [Transakt.executeTransaction, htx] at h
      | Dispute c0 t0 =>
        simp [Transakt.executeTransaction, htx] at h
      | Resolve c0 t0 =>
        simp [Transakt.executeTransaction, htx] at h
      | Chargeback c0 t0 =>
        simp [Transakt.executeTransaction, htx] at h
  | Resolve cP tx =>
    cases htx : s.transactions tx with
    | none =>
      simp [Transakt.executeTransaction, htx] at h
    | some r =>
      cases r with
      | Deposit c0 t0 a0 d0 =>
        cases d0 with
        | false =>
          simp only [Transakt.executeTransaction, htx, Bool.not_false,
            if_true, Option.some.injEq, Prod.mk.injEq] at h
          obtain ⟨-, hs⟩ := h
          subst hs
          exact ⟨fun k => Or.inl rfl, fun k => Or.inl rfl⟩
        | true =>
          cases hacc : s.accounts c0 with
          | none =>
            simp [Transakt.executeTransaction, htx, hacc] at h
          | some acct =>
            simp [Transakt.executeTransaction, htx, hacc] at h
      | Withdrawal c0 t0 a0 =>
        simp [Transakt.executeTransaction, htx] at h
      | Dispute c0 t0 =>
        simp [Transakt.executeTransaction, htx] at h
      | Resolve c0 t0 =>
        simp [Transakt.executeTransaction, htx] at h
      | Chargeback c0 t0 =>
        simp [Transakt.executeTransaction, htx] at h
  | Chargeback cP tx =>
    cases htx : s.transactions tx with
    | none =>
      simp [Transakt.executeTransaction, htx] at h
    | some r =>
      cases r with
      | Deposit c0 t0 a0 d0 =>
        cases d0 with
        | false =>
          simp only [Transakt.executeTransaction, htx, Bool.not_false,
            if_true, Option.some.injEq, Prod.mk.injEq] at h
          obtain ⟨-, hs⟩ := h
          subst hs
          exact ⟨fun k => Or.inl rfl, fun k => Or.inl rfl⟩
        | true =>
          cases hacc : s.accounts c0 with
          | none =>
            simp [Transakt.executeTransaction, htx, hacc] at h
          | some acct =>
            simp only [Transakt.executeTransaction, htx, hacc, Bool.not_true,
              Bool.false_eq_true, if_false, Option.some.injEq,
              Prod.mk.injEq] at h
            obtain ⟨hfst, hs⟩ := h
            subst hs
            rcases chargeback_snd_or acct a0 with hok | hsnd
            · rw [hok] at hfst
              simp at hfst
            · constructor
              · intro k
                by_cases hk : k = c0
                · subst hk
                  refine Or.inl ?_
                  show mapInsert s.accounts k _ k = s.accounts k
                  rw [mapInsert_self, hsnd, hacc]
                · exact Or.inl (mapInsert_ne _ _ hk)
              · intro k
                by_cases hk : k = tx
                · subst hk
                  refine Or.inr ⟨c0, t0, a0, htx, ?_⟩
                  show mapInsert s.transactions k _ k = _
                  rw [mapInsert_self]
                · exact Or.inl (mapInsert_ne _ _ hk)
      | Withdrawal c0 t0 a0 =>
        simp [Transakt.executeTransaction, htx] at h
      | Dispute c0 t0 =>
        simp [Transakt.executeTransaction, htx] at h
      | Resolve c0 t0 =>
        simp [Transakt.executeTransaction, htx] at h
      | Chargeback c0 t0 =>
        simp [Transakt.executeTransaction, htx] at h

/-- Claim C3 witness: a withdrawal by a never-seen client fails with
`Overflow`, and the amended no-mutation properties hold of the resulting
state (which contains the freshly inserted default account). -/
theorem c3_witness :
    (Transakt.empty.executeTransaction (Transaction.Withdrawal 1 1 ⟨10000⟩) =
      some (Except.error Error.Overflow,
        Transakt.empty.step (Transaction.Withdrawal 1 1 ⟨10000⟩))) ∧
    ((∀ k, (Transakt.empty.step
          (Transaction.Withdrawal 1 1 ⟨10000⟩)).accounts k =
        Transakt.empty.accounts k ∨
        (Transakt.empty.accounts k = none ∧
          (Transakt.empty.step
            (Transaction.Withdrawal 1 1 ⟨10000⟩)).accounts k =
            some (Account.new k))) ∧
      (∀ k, (Transakt.empty.step
          (Transaction.Withdrawal 1 1 ⟨10000⟩)).transactions k =
        Transakt.empty.transactions k ∨
        ∃ c0 t0 a0,
          Transakt.empty.transactions k =
            some (Transaction.Deposit c0 t0 a0 true) ∧
          (Transakt.empty.step
            (Transaction.Withdrawal 1 1 ⟨10000⟩)).transactions k =
            some (Transaction.Deposit c0 t0 a0 false))) :=
  ⟨rfl, c3_amended Transakt.empty (Transaction.Withdrawal 1 1 ⟨10000⟩)
    Error.Overflow (Transakt.empty.step (Transaction.Withdrawal 1 1 ⟨10000⟩))
    rfl⟩

/-- Claim C10: a dispute on an accepted, undisputed deposit returns success
and marks the record disputed even when the account-level `hold` fails; when
available is short of the amount (and the held increase fits), `held` is
raised by the amount while `available` is unchanged.  A resolve likewise
returns success and clears the flag when `release` fails (here: on a locked
account), leaving the account as it was. -/
theorem c10_dispute_resolve_discard_errors (s : Transakt)
    (c tx t0 cx cy : Nat) (a : Currency) (acct : Account)
    (h1 : s.transactions tx = some (Transaction.Deposit c t0 a false))
    (h2 : s.accounts c = some acct)
    (h3 : acct.locked = false)
    (h4 : acct.available.amount < a.amount)
    (h5 : acct.held.amount + a.amount < u64Bound) :
    (∃ s1, s.executeTransaction (Transaction.Dispute cx tx) =
        some (Except.ok (), s1) ∧
      s1.transactions tx = some (Transaction.Deposit c t0 a true) ∧
      s1.accounts c =
        some { acct with held := ⟨acct.held.amount + a.amount⟩ }) ∧
    (∀ (s2 : Transakt) (acct2 : Account),
      s2.transactions tx = some (Transaction.Deposit c t0 a true) →
      s2.accounts c = some acct2 → acct2.locked = true →
      ∃ s3, s2.executeTransaction (Transaction.Resolve cy tx) =
          some (Except.ok (), s3) ∧
        s3.transactions tx = some (Transaction.Deposit c t0 a false) ∧
        s3.accounts c = some acct2) := by
  constructor
  · have h4' : ¬ a.amount ≤ acct.available.amount := by omega
    refine ⟨(⟨mapInsert s.accounts c
        { acct with held := ⟨acct.held.amount + a.amount⟩ },
      mapInsert s.transactions tx
        (Transaction.Deposit c t0 a true)⟩ : Transakt), ?_, ?_, ?_⟩
    · simp only [Transakt.executeTransaction, h1, Bool.false_eq_true,
        if_false, Account.hold, Currency.checked_add, Currency.checked_sub,
        h2, h3, h5, if_true, h4', Bool.not_false]
    · exact mapInsert_self _ _ _
    · exact mapInsert_self _ _ _
  · intro s2 acct2 g1 g2 g3
    refine ⟨(⟨mapInsert s2.accounts c acct2,
      mapInsert s2.transactions tx
        (Transaction.Deposit c t0 a false)⟩ : Transakt), ?_, ?_, ?_⟩
    · simp only [Transakt.executeTransaction, g1, Bool.not_true,
        Bool.false_eq_true, if_false, Account.release, g2, g3]
    · exact mapInsert_self _ _ _
    · exact mapInsert_self _ _ _

/-- Claim C10 witness: after depositing 2.0000 (tx 1) and withdrawing
1.0000, available (1.0000) is short of the disputed amount (2.0000), yet
the dispute succeeds and raises held without touching available. -/
theorem c10_witness :
    ((Transakt.runAll Transakt.empty
        [Transaction.Deposit 1 1 ⟨20000⟩ false,
         Transaction.Withdrawal 1 2 ⟨10000⟩]).transactions 1 =
      some (Transaction.Deposit 1 1 ⟨20000⟩ false)) ∧
    ((Transakt.runAll Transakt.empty
        [Transaction.Deposit 1 1 ⟨20000⟩ false,
         Transaction.Withdrawal 1 2 ⟨10000⟩]).accounts 1 =
      some ⟨1, ⟨10000⟩, ⟨0⟩, false⟩) ∧
    ((⟨1, ⟨10000⟩, ⟨0⟩, false⟩ : Account).locked = false) ∧
    ((⟨1, ⟨10000⟩, ⟨0⟩, false⟩ : Account).available.amount <
      (⟨20000⟩ : Currency).amount) ∧
    ((⟨1, ⟨10000⟩, ⟨0⟩, false⟩ : Account).held.amount +
      (⟨20000⟩ : Currency).amount < u64Bound) ∧
    ((∃ s1, (Transakt.runAll Transakt.empty
          [Transaction.Deposit 1 1 ⟨20000⟩ false,
           Transaction.Withdrawal 1 2 ⟨10000⟩]).executeTransaction
            (Transaction.Dispute 5 1) = some (Except.ok (), s1) ∧
        s1.transactions 1 = some (Transaction.Deposit 1 1 ⟨20000⟩ true) ∧
        s1.accounts 1 = some { (⟨1, ⟨10000⟩, ⟨0⟩, false⟩ : Account) with
          held := ⟨(⟨1, ⟨10000⟩, ⟨0⟩, false⟩ : Account).held.amount +
            (⟨20000⟩ : Currency).amount⟩ }) ∧
      (∀ (s2 : Transakt) (acct2 : Account),
        s2.transactions 1 = some (Transaction.Deposit 1 1 ⟨20000⟩ true) →
        s2.accounts 1 = some acct2 → acct2.locked = true →
        ∃ s3, s2.executeTransaction (Transaction.Resolve 6 1) =
            some (Except.ok (), s3) ∧
          s3.transactions 1 = some (Transaction.Deposit 1 1 ⟨20000⟩ false) ∧
          s3.accounts 1 = some acct2)) :=
  ⟨by decide, by decide, by decide, by decide, by decide,
    c10_dispute_resolve_discard_errors _ 1 1 1 5 6 ⟨20000⟩
      ⟨1, ⟨10000⟩, ⟨0⟩, false⟩ (by decide) (by decide) (by decide)
      (by decide) (by decide)⟩

/-- Claim C5 counterexample: deposit 2.0000 (tx 1), withdraw 1.0000, so the
account holds available 1.0000 and held 0 with tx 1 an accepted, undisputed
deposit.  A dispute on tx 1 and a resolve on tx 1 both report success, yet
afterwards available is 3.0000 and held 0 — not the pre-dispute balances
(the dispute's failed `hold` raised held without lowering available, and
the resolve's `release` then credited available). -/
theorem c5_counterexample :
    ((Transakt.runAll Transakt.empty
        [Transaction.Deposit 1 1 ⟨20000⟩ false,
         Transaction.Withdrawal 1 2 ⟨10000⟩]).transactions 1 =
      some (Transaction.Deposit 1 1 ⟨20000⟩ false)) ∧
    (((Transakt.runAll Transakt.empty
        [Transaction.Deposit 1 1 ⟨20000⟩ false,
         Transaction.Withdrawal 1 2 ⟨10000⟩]).accounts 1).map
      (fun acc => (acc.available, acc.held)) =
        some (⟨10000⟩, ⟨0⟩)) ∧
    (((Transakt.runAll Transakt.empty
        [Transaction.Deposit 1 1 ⟨20000⟩ false,
         Transaction.Withdrawal 1 2 ⟨10000⟩]).executeTransaction
      (Transaction.Dispute 1 1)).map Prod.fst = some (Except.ok ())) ∧
    (((Transakt.runAll Transakt.empty
        [Transaction.Deposit 1 1 ⟨20000⟩ false,
         Transaction.Withdrawal 1 2 ⟨10000⟩,
         Transaction.Dispute 1 1]).executeTransaction
      (Transaction.Resolve 1 1)).map Prod.fst = some (Except.ok ())) ∧
    (((Transakt.runAll Transakt.empty
        [Transaction.Deposit 1 1 ⟨20000⟩ false,
         Transaction.Withdrawal 1 2 ⟨10000⟩,
         Transaction.Dispute 1 1,
         Transaction.Resolve 1 1]).accounts 1).map
      (fun acc => (acc.available, acc.held)) =
        some (⟨30000⟩, ⟨0⟩)) ∧
    (some ((⟨30000⟩ : Currency), (⟨0⟩ : Currency)) ≠
      some ((⟨10000⟩ : Currency), (⟨0⟩ : Currency))) := by
  decide
